import Mathlib

/-!
Verification of the ngc5pm_pj1_rst_server registration core against its
natural-language specification.

The Rust sources are shallowly embedded: Rust `&str`/`String` values become
`List Char` (named `Str` below), with an explicit UTF-8 byte-length function
wherever the source calls `str::len()`; fallible constructors return
`Except AppError _` mirroring `AppResult<T> = Result<T, AppError>`;
behaviour of external crates (`zxcvbn`, `unicode_general_category`'s table,
`argon2`'s digest, `sha3`, the PostgreSQL store) is abstracted into explicit
function/oracle parameters, so the theorems quantify over them.
-/

namespace Ngc

/-- Rust strings are modelled as lists of Unicode scalar values. -/
abbrev Str := List Char

/-- UTF-8 encoded size in bytes of one scalar value (what `str::len` counts). -/
def utf8CharLen (c : Char) : Nat :=
  if c.val < 0x80 then 1
  else if c.val < 0x800 then 2
  else if c.val < 0x10000 then 3
  else 4

/-- `str::len()`: the UTF-8 byte length of a string. -/
def utf8Len (s : Str) : Nat := (s.map utf8CharLen).sum

/-- The Unicode `White_Space` property, which Rust's `str::trim` strips. -/
def isRustWhitespace (c : Char) : Bool :=
  let v := c.val.toNat
  (0x09 ≤ v ∧ v ≤ 0x0D) ∨ v = 0x20 ∨ v = 0x85 ∨ v = 0xA0 ∨
    v = 0x1680 ∨ (0x2000 ≤ v ∧ v ≤ 0x200A) ∨ v = 0x2028 ∨
    v = 0x2029 ∨ v = 0x202F ∨ v = 0x205F ∨ v = 0x3000

/-- Rust `str::trim`: removes leading and trailing `White_Space` characters. -/
def rustTrim (s : Str) : Str :=
  ((s.dropWhile isRustWhitespace).reverse.dropWhile isRustWhitespace).reverse

/-- Rust `str::contains(&str)`: substring search. -/
def containsSub (hay needle : Str) : Bool :=
  (List.range (hay.length + 1)).any fun i => needle.isPrefixOf (hay.drop i)

/-- ASCII lowercasing; one concrete instance of `str::to_lowercase` used to
evaluate witnesses (the full Unicode lowering stays an abstract parameter). -/
def asciiLowerChar (c : Char) : Char :=
  if 0x41 ≤ c.val ∧ c.val ≤ 0x5A then Char.ofNat (c.toNat + 32) else c

def asciiLower (s : Str) : Str := s.map asciiLowerChar

/-- `interfaces/http/error.rs`: the `AppError` variants reachable from the
registration core (each carries an optional human-readable detail). -/
inductive AppError where
  | badRequest (detail : Option String)
  | unauthorized (detail : Option String)
  | conflict (detail : Option String)
  | unprocessableContent (detail : Option String)
  | internalServerError (detail : Option String)
deriving DecidableEq, Repr

/-- Unicode general categories distinguished by `utils/string.rs`; the
assignment of characters to categories lives in the external
`unicode_general_category` crate and is therefore a parameter. -/
inductive GeneralCategory where
  | control
  | format
  | surrogate
  | privateUse
  | unassigned
  | lineSeparator
  | paragraphSeparator
  | other
deriving DecidableEq, Repr

/-- `utils/string.rs::is_forbidden_char`, parameterised by the external
category table `gc`.  ZWNJ (U+200C) and ZWJ (U+200D) are exempted from the
`Format` ban; the listed categories are forbidden; anything else falls
through to the explicit blocklist of bidi controls, the tag block and the
non-characters. -/
def inBlocklist (c : Char) : Bool :=
  let v := c.val.toNat
  (0x202A ≤ v ∧ v ≤ 0x202E) ∨ (0x2066 ≤ v ∧ v ≤ 0x2069) ∨ v = 0x200E ∨ v = 0x200F ∨
    (0xE0000 ≤ v ∧ v ≤ 0xE007F) ∨
    (0xFDD0 ≤ v ∧ v ≤ 0xFDEF) ∨ v = 0xFFFE ∨ v = 0xFFFF ∨
    v = 0x1FFFE ∨ v = 0x1FFFF ∨ v = 0x2FFFE ∨ v = 0x2FFFF ∨ v = 0x3FFFE ∨ v = 0x3FFFF ∨
    v = 0x4FFFE ∨ v = 0x4FFFF ∨ v = 0x5FFFE ∨ v = 0x5FFFF ∨ v = 0x6FFFE ∨ v = 0x6FFFF ∨
    v = 0x7FFFE ∨ v = 0x7FFFF ∨ v = 0x8FFFE ∨ v = 0x8FFFF ∨ v = 0x9FFFE ∨ v = 0x9FFFF ∨
    v = 0xAFFFE ∨ v = 0xAFFFF ∨ v = 0xBFFFE ∨ v = 0xBFFFF ∨ v = 0xCFFFE ∨ v = 0xCFFFF ∨
    v = 0xDFFFE ∨ v = 0xDFFFF ∨ v = 0xEFFFE ∨ v = 0xEFFFF ∨ v = 0xFFFFE ∨ v = 0xFFFFF ∨
    v = 0x10FFFE ∨ v = 0x10FFFF

def is_forbidden_char (gc : Char → GeneralCategory) (c : Char) : Bool :=
  match gc c with
  | .format => if c.val = 0x200C ∨ c.val = 0x200D then false else true
  | .control | .surrogate | .privateUse | .unassigned
  | .lineSeparator | .paragraphSeparator => true
  | .other => inBlocklist c

/-- `chrono::NaiveDate`: a calendar date without time component. -/
structure NaiveDate where
  year : Nat
  month : Nat
  day : Nat
deriving DecidableEq, Repr

/-- Decimal digits of `n`, most significant first. -/
def natDigits (n : Nat) : Str := Nat.toDigits 10 n

/-- `format!("%m%d")`-style zero padding to two digits. -/
def pad2 (n : Nat) : Str :=
  if n < 10 then '0' :: natDigits n else natDigits n

/-- `format!("%Y")`-style zero padding to four digits (chrono pads years
below 1000 with zeros). -/
def pad4 (n : Nat) : Str :=
  if n < 10 then '0' :: '0' :: '0' :: natDigits n
  else if n < 100 then '0' :: '0' :: natDigits n
  else if n < 1000 then '0' :: natDigits n
  else natDigits n

/-- `birth_date.format("%Y%m%d")`. -/
def fmtYMD (d : NaiveDate) : Str := pad4 d.year ++ pad2 d.month ++ pad2 d.day

/-- `birth_date.format("%m%d")`. -/
def fmtMD (d : NaiveDate) : Str := pad2 d.month ++ pad2 d.day

/-- `domain/value_obj/user_password.rs`: the validated password value
object.  In the visible source the wrapped string is the *trimmed plaintext*
(`Self(password.to_string())`). -/
structure UserPassword where
  secret : Str
deriving DecidableEq, Repr

namespace UserPassword

def TARGET : String := "パスワード(user_password)"

def MIN_LEN : Nat := 8
def MAX_LEN : Nat := 64
def MIN_ZXCVBN_SCORE : Nat := 3

/-- Message of the length rejection: the `format!` output with `TARGET`,
`MIN_LEN` = 8 and `MAX_LEN` = 64 interpolated. -/
def lengthErrMsg : String :=
  "パスワード(user_password)は8文字以上、64文字以下でなければなりません。"

/-- Message of the contains-user-name rejection (`TARGET` interpolated). -/
def userNameErrMsg : String :=
  "パスワード(user_password)にはユーザー名を含めることができません。"

/-- Message of the contains-birth-date rejection (`TARGET` interpolated). -/
def birthDateErrMsg : String :=
  "パスワード(user_password)には誕生日を含めることができません。"

/-- Message of the forbidden-character rejection (`TARGET` interpolated). -/
def forbiddenErrMsg : String :=
  "パスワード(user_password)には使用できない文字が含まれています。"

/-- Message of the strength rejection (`TARGET` interpolated). -/
def strengthErrMsg : String :=
  "パスワード(user_password)は強度が不十分です。より強力なパスワードを使用してください。"

/-- `UserPassword::new`, embedded line by line from the source.  External
library behaviour is a parameter: `gc` is the Unicode category table behind
`is_forbidden_char`, `toLower` is `str::to_lowercase`, and `zxcvbnScore`
is the `zxcvbn` crate's score (as a number 0..4) of a candidate given the
user-input dictionary.  The source checks, in this order: trim; empty and
not required → absent; byte length outside [8,64] → length error; lowered
password contains the (doubly) lowered user name → user-name error; if a
birth date is given and the lowered password contains its `%Y%m%d` or
`%m%d` rendering → birth-date error; any char of the *lowered* password
forbidden → forbidden-char error; zxcvbn score below 3 → strength error;
otherwise the trimmed plaintext is wrapped and returned. -/
def new (gc : Char → GeneralCategory) (toLower : Str → Str)
    (zxcvbnScore : Str → List Str → Nat)
    (input : Str) (required : Bool) (user_name : Str)
    (birth_date : Option NaiveDate) :
    Except AppError (Option UserPassword) :=
  let password := rustTrim input
  let lower_password := toLower password
  if password.isEmpty ∧ required = false then .ok none
  else if utf8Len password < MIN_LEN ∨ MAX_LEN < utf8Len password then
    .error (.unprocessableContent (some lengthErrMsg))
  else
    let user_name := toLower user_name
    if containsSub lower_password (toLower user_name) then
      .error (.unprocessableContent (some userNameErrMsg))
    else
      let afterBirth : Except AppError (Option UserPassword) :=
        if (toLower password).any (is_forbidden_char gc) then
          .error (.unprocessableContent (some forbiddenErrMsg))
        else if zxcvbnScore password [user_name] < MIN_ZXCVBN_SCORE then
          .error (.unprocessableContent (some strengthErrMsg))
        else .ok (some ⟨password⟩)
      match birth_date with
      | some bd =>
        if containsSub lower_password (fmtYMD bd) ∨ containsSub lower_password (fmtMD bd) then
          .error (.unprocessableContent (some birthDateErrMsg))
        else afterBirth
      | none => afterBirth

end UserPassword

/-- A category table that classifies every character as `other`; a concrete
instance used in witnesses (the blocklist in `is_forbidden_char` is reached
independently of the table). -/
def gcOther : Char → GeneralCategory := fun _ => .other

/-- A zxcvbn estimator that always returns the maximal score 4; a concrete
instance for witnesses. -/
def score4 : Str → List Str → Nat := fun _ _ => 4

/-- C2.  The password pipeline performs no zeroization at all: on the
success path `UserPassword::new` returns `Ok(Some(Self(password.to_string())))`,
i.e. the trimmed plaintext itself survives the pipeline inside the returned
value, and no exit path overwrites the buffer (the repository contains no
zeroization call).  Evaluating the embedded pipeline at a concrete accepted
secret exhibits the plaintext retained verbatim in the result. -/
theorem c2_plaintext_retained_not_zeroized :
    UserPassword.new gcOther asciiLower score4 "StrongPassw0rd!".data true
      "username".data none = .ok (some ⟨"StrongPassw0rd!".data⟩) := by rfl

/-- C4 counterexample.  The source checks `password.len()`, the UTF-8 *byte*
length, not the character count: the secret "ααααααα" has 7 characters
(each 'α' is 2 bytes, 14 bytes total), so by the claim it must be rejected
with the length error, yet the pipeline accepts it. -/
theorem c4_counterexample_seven_char_secret_accepted :
    ("ααααααα".data.length = 7) ∧
    UserPassword.new gcOther asciiLower score4 "ααααααα".data true
      "user".data none = .ok (some ⟨"ααααααα".data⟩) :=
  ⟨by decide, by rfl⟩

/-- C4 (amended).  The length check counts UTF-8 bytes, not characters: for
a required secret, the pipeline returns the length rejection exactly when
the byte length of the trimmed secret is outside [8,64]. -/
theorem c4_length_check_counts_bytes
    (gc : Char → GeneralCategory) (toLower : Str → Str)
    (score : Str → List Str → Nat)
    (input user_name : Str) (bd : Option NaiveDate) :
    UserPassword.new gc toLower score input true user_name bd
        = .error (.unprocessableContent (some UserPassword.lengthErrMsg))
      ↔ (utf8Len (rustTrim input) < 8 ∨ 64 < utf8Len (rustTrim input)) := by
  cases bd with
  | none =>
    simp only [UserPassword.new]
    split_ifs with h1 h2 h3 h4 h5 <;>
      simp_all [UserPassword.MIN_LEN, UserPassword.MAX_LEN,
        UserPassword.lengthErrMsg, UserPassword.userNameErrMsg,
        UserPassword.birthDateErrMsg, UserPassword.forbiddenErrMsg,
        UserPassword.strengthErrMsg]
  | some d =>
    simp only [UserPassword.new]
    split_ifs with h1 h2 h3 h4 h5 h6 <;>
      simp_all [UserPassword.MIN_LEN, UserPassword.MAX_LEN,
        UserPassword.lengthErrMsg, UserPassword.userNameErrMsg,
        UserPassword.birthDateErrMsg, UserPassword.forbiddenErrMsg,
        UserPassword.strengthErrMsg]

/-- C4 witness: a concrete 5-byte secret is rejected with the length error. -/
theorem c4_length_check_counts_bytes_witness :
    UserPassword.new gcOther asciiLower score4 "short".data true
      "user".data none
      = .error (.unprocessableContent (some UserPassword.lengthErrMsg)) :=
  (c4_length_check_counts_bytes gcOther asciiLower score4 "short".data
    "user".data none).mpr (by decide)

/-- C5.  Whenever the lowered trimmed secret contains the lowered handle as
a substring, or (a birth date being supplied) contains its `YYYYMMDD` or
`MMDD` rendering, the pipeline never returns a validated password —
regardless of the strength estimator, the category table, or the
`required` flag.  (`hlow` records that lowercasing is idempotent, as
Unicode lowercasing is; the source lowercases the handle twice.) -/
theorem c5_contextual_content_never_validates
    (gc : Char → GeneralCategory) (toLower : Str → Str)
    (score : Str → List Str → Nat)
    (hlow : ∀ s, toLower (toLower s) = toLower s)
    (input user_name : Str) (required : Bool) (bd : Option NaiveDate)
    (h : containsSub (toLower (rustTrim input)) (toLower user_name) = true
       ∨ ∃ d, bd = some d ∧
           (containsSub (toLower (rustTrim input)) (fmtYMD d) = true
             ∨ containsSub (toLower (rustTrim input)) (fmtMD d) = true)) :
    ∀ pw, UserPassword.new gc toLower score input required user_name bd
      ≠ .ok (some pw) := by
  intro pw hEq
  simp only [UserPassword.new, hlow] at hEq
  rcases h with hname | ⟨d, hd, hdate⟩
  · cases bd with
    | none => split_ifs at hEq <;> simp_all
    | some d => split_ifs at hEq <;> simp_all
  · subst hd
    rcases hdate with h1 | h1 <;> (split_ifs at hEq <;> simp_all)

/-- C5 witness: the secret "bob12345" contains the handle "bob" and is
rejected, here instantiated with the identity lowering and the maximal
strength estimator. -/
theorem c5_contextual_content_never_validates_witness :
    UserPassword.new gcOther id score4 "bob12345".data true "bob".data none
      ≠ .ok (some ⟨"bob12345".data⟩) :=
  c5_contextual_content_never_validates gcOther id score4 (fun _ => rfl)
    "bob12345".data "bob".data true none (Or.inl (by decide))
    ⟨"bob12345".data⟩

/-- C6 counterexample.  The source runs the contextual-content check
*before* the forbidden-character check (steps 5 and 4 of the spec, in that
order): the secret "user" ++ U+202A ++ "abc" passes the length check, contains both a
forbidden character (the bidi control U+202A) and the handle "user", and
the rejection returned is the contains-user-name rejection, not the
forbidden-character rejection the claim requires. -/
theorem c6_counterexample_contextual_rejection_wins :
    ((asciiLower (rustTrim "user\u202Aabc".data)).any
        (is_forbidden_char gcOther) = true)
    ∧ containsSub (asciiLower (rustTrim "user\u202Aabc".data))
        (asciiLower "user".data) = true
    ∧ (8 ≤ utf8Len (rustTrim "user\u202Aabc".data)
        ∧ utf8Len (rustTrim "user\u202Aabc".data) ≤ 64)
    ∧ UserPassword.new gcOther asciiLower score4 "user\u202Aabc".data true
        "user".data none
        = .error (.unprocessableContent (some UserPassword.userNameErrMsg))
    ∧ UserPassword.userNameErrMsg ≠ UserPassword.forbiddenErrMsg :=
  ⟨by decide, by decide, by decide, by rfl, by decide⟩

/-- C6 (amended).  In the pipeline's short-circuit order the
contextual-content check runs before the forbidden-character check: every
required secret that passes the length check and both contains a forbidden
character and contains the handle (or a supplied birth date rendering)
receives a contextual-content rejection, never the forbidden-character
rejection. -/
theorem c6_contextual_check_precedes_forbidden
    (gc : Char → GeneralCategory) (toLower : Str → Str)
    (score : Str → List Str → Nat)
    (input user_name : Str) (bd : Option NaiveDate)
    (hlen : ¬(utf8Len (rustTrim input) < 8 ∨ 64 < utf8Len (rustTrim input)))
    (hforb : (toLower (rustTrim input)).any (is_forbidden_char gc) = true)
    (hctx : containsSub (toLower (rustTrim input))
              (toLower (toLower user_name)) = true
          ∨ ∃ d, bd = some d ∧
              (containsSub (toLower (rustTrim input)) (fmtYMD d) = true
                ∨ containsSub (toLower (rustTrim input)) (fmtMD d) = true)) :
    UserPassword.new gc toLower score input true user_name bd
        = .error (.unprocessableContent (some UserPassword.userNameErrMsg))
      ∨ UserPassword.new gc toLower score input true user_name bd
        = .error (.unprocessableContent (some UserPassword.birthDateErrMsg)) := by
  simp only [UserPassword.new]
  rcases hctx with hname | ⟨d, hd, hdate⟩
  · cases bd with
    | none =>
      split_ifs <;>
        simp_all [UserPassword.MIN_LEN, UserPassword.MAX_LEN] <;> omega
    | some d =>
      split_ifs <;>
        simp_all [UserPassword.MIN_LEN, UserPassword.MAX_LEN] <;> omega
  · subst hd
    rcases hdate with h1 | h1 <;>
      (split_ifs <;>
        simp_all [UserPassword.MIN_LEN, UserPassword.MAX_LEN] <;> omega)

/-- C6 witness: a concrete secret containing both the handle and a bidi
control character receives the contains-user-name rejection. -/
theorem c6_contextual_check_precedes_forbidden_witness :
    UserPassword.new gcOther asciiLower score4 "xxuser\u202Aab".data true
        "user".data none
        = .error (.unprocessableContent (some UserPassword.userNameErrMsg))
      ∨ UserPassword.new gcOther asciiLower score4 "xxuser\u202Aab".data true
        "user".data none
        = .error (.unprocessableContent (some UserPassword.birthDateErrMsg)) :=
  c6_contextual_check_precedes_forbidden gcOther asciiLower score4
    "xxuser\u202Aab".data "user".data none (by decide) (by decide)
    (Or.inl (by decide))

/-! ## Status and role enums (`domain/entity/user.rs`) -/

/-- A Rust `panic!` aborts instead of producing a value; the embedding makes
the abort explicit. -/
inductive PanicOr (α : Type) where
  | panicked (msg : String)
  | value (a : α)
deriving DecidableEq, Repr

/-- `UserStatus` (`domain/entity/user.rs`). -/
inductive UserStatus where
  | active
  | pending
  | deactivated
  | suspended
  | deleted
  | archived
deriving DecidableEq, Repr

/-- `impl From<i16> for UserStatus`: the source `match` maps 0..5 to the
variants and *panics* on anything else. -/
def UserStatus.fromI16 (v : Int) : PanicOr UserStatus :=
  if v = 0 then .value .active
  else if v = 1 then .value .pending
  else if v = 2 then .value .deactivated
  else if v = 3 then .value .suspended
  else if v = 4 then .value .deleted
  else if v = 5 then .value .archived
  else .panicked ("不正なユーザーステータス値: " ++ toString v)

/-- `impl From<UserStatus> for i16`. -/
def UserStatus.toI16 : UserStatus → Int
  | .active => 0
  | .pending => 1
  | .deactivated => 2
  | .suspended => 3
  | .deleted => 4
  | .archived => 5

/-- `UserRole` (`domain/entity/user.rs`). -/
inductive UserRole where
  | guest
  | user
  | support
  | moderator
  | admin
  | superAdmin
deriving DecidableEq, Repr

/-- `impl From<i16> for UserRole`: 0 maps to `User` and 1 to `Guest` (the
source deliberately swaps them relative to declaration order); panics on
out-of-range values. -/
def UserRole.fromI16 (v : Int) : PanicOr UserRole :=
  if v = 0 then .value .user
  else if v = 1 then .value .guest
  else if v = 2 then .value .support
  else if v = 3 then .value .moderator
  else if v = 4 then .value .admin
  else if v = 5 then .value .superAdmin
  else .panicked ("不正なユーザーロール値: " ++ toString v)

/-- `impl From<UserRole> for i16`. -/
def UserRole.toI16 : UserRole → Int
  | .user => 0
  | .guest => 1
  | .support => 2
  | .moderator => 3
  | .admin => 4
  | .superAdmin => 5

/-- C9 counterexample.  The reverse lookup does not fail cleanly with an
error value on an out-of-range stored integer: at 6 both conversions hit
the `panic!` arm (a crash), so the claim's error-value part is false of the
code. -/
theorem c9_counterexample_out_of_range_panics :
    UserStatus.fromI16 6 = .panicked "不正なユーザーステータス値: 6"
    ∧ UserRole.fromI16 6 = .panicked "不正なユーザーロール値: 6" :=
  ⟨by rfl, by rfl⟩

/-- C9 (amended).  The enum/integer conversions are mutually inverse on the
in-range values 0..5 (for both status and role), but an out-of-range stored
integer makes the reverse lookup panic — it crashes rather than returning a
clean error value. -/
theorem c9_enum_int_conversions
    : (∀ s : UserStatus, UserStatus.fromI16 (UserStatus.toI16 s) = .value s)
    ∧ (∀ r : UserRole, UserRole.fromI16 (UserRole.toI16 r) = .value r)
    ∧ (∀ v : Int, 0 ≤ v → v ≤ 5 →
        (∃ s, UserStatus.fromI16 v = .value s ∧ UserStatus.toI16 s = v)
        ∧ (∃ r, UserRole.fromI16 v = .value r ∧ UserRole.toI16 r = v))
    ∧ (∀ v : Int, v < 0 ∨ 5 < v →
        UserStatus.fromI16 v
            = .panicked ("不正なユーザーステータス値: " ++ toString v)
        ∧ UserRole.fromI16 v
            = .panicked ("不正なユーザーロール値: " ++ toString v)) := by
  refine ⟨fun s => by cases s <;> rfl, fun r => by cases r <;> rfl, ?_, ?_⟩
  · intro v h0 h5
    interval_cases v
    · exact ⟨⟨.active, rfl, rfl⟩, ⟨.user, rfl, rfl⟩⟩
    · exact ⟨⟨.pending, rfl, rfl⟩, ⟨.guest, rfl, rfl⟩⟩
    · exact ⟨⟨.deactivated, rfl, rfl⟩, ⟨.support, rfl, rfl⟩⟩
    · exact ⟨⟨.suspended, rfl, rfl⟩, ⟨.moderator, rfl, rfl⟩⟩
    · exact ⟨⟨.deleted, rfl, rfl⟩, ⟨.admin, rfl, rfl⟩⟩
    · exact ⟨⟨.archived, rfl, rfl⟩, ⟨.superAdmin, rfl, rfl⟩⟩
  · intro v hv
    constructor
    · unfold UserStatus.fromI16
      split_ifs <;> first | rfl | omega
    · unfold UserRole.fromI16
      split_ifs <;> first | rfl | omega

/-- C9 witness: the in-range value 3 round-trips and the out-of-range value
7 panics, via the conversion theorem at concrete inputs. -/
theorem c9_enum_int_conversions_witness :
    (∃ s, UserStatus.fromI16 3 = .value s ∧ UserStatus.toI16 s = 3)
    ∧ UserRole.fromI16 7 = .panicked ("不正なユーザーロール値: " ++ toString (7 : Int)) :=
  ⟨(c9_enum_int_conversions.2.2.1 3 (by norm_num) (by norm_num)).1,
    (c9_enum_int_conversions.2.2.2 7 (Or.inr (by norm_num))).2⟩

/-! ## Normalized text and the user-name value object
(`domain/value_obj/user_name.rs`, `utils/regex.rs`) -/

/-- Modelled from the spec: `NormalizedString`
(`domain/value_obj/normalized_string.rs` is absent from the source tree;
only its callers are visible).  Per the spec's Normalized Text contract:
trim only; if required and empty after trim, construction fails; if not
required and empty, the result is absent; if present, the length must lie
within the given bounds. -/
def NormalizedString.new (input : Str) (required : Bool) (target : String)
    (minLen maxLen : Option Nat) : Except AppError (Option Str) :=
  let s := rustTrim input
  if s.isEmpty then
    if required then
      .error (.unprocessableContent (some (target ++ "は必須のパラメータです。")))
    else .ok none
  else
    let tooShort : Bool := match minLen with
      | some m => s.length < m
      | none => false
    let tooLong : Bool := match maxLen with
      | some m => m < s.length
      | none => false
    if tooShort || tooLong then
      .error (.unprocessableContent (some (target ++ "の長さが不正です。")))
    else .ok (some s)

/-- The character class `[A-Za-z0-9_]` (first/last class of
`USER_NAME_REGEX`). -/
def isWordChar (c : Char) : Bool :=
  let v := c.val.toNat
  (0x41 ≤ v ∧ v ≤ 0x5A) ∨ (0x61 ≤ v ∧ v ≤ 0x7A) ∨ (0x30 ≤ v ∧ v ≤ 0x39) ∨ v = 0x5F

/-- The middle character class `[A-Za-z0-9_+\-]` of `USER_NAME_REGEX`. -/
def isMidChar (c : Char) : Bool :=
  isWordChar c ∨ c.val.toNat = 0x2B ∨ c.val.toNat = 0x2D

/-- Matcher for `(?:[A-Za-z0-9_+\-]|\.[A-Za-z0-9_+\-])*[A-Za-z0-9_]`
against the whole remaining input (the part of `USER_NAME_REGEX` after its
first character): a star of units — a middle character, or a dot followed
by a middle character — and then one final word character.  The parse is
deterministic: a dot can only start a dot-unit, and any other character
must be consumed by the star unless it is the last one. -/
def userNameTail : Str → Bool
  | [] => false
  | [c] => isWordChar c
  | c :: d :: rest =>
    if c = '.' then isMidChar d && userNameTail rest
    else isMidChar c && userNameTail (d :: rest)

/-- `utils/regex.rs::USER_NAME_REGEX`,
`^(?:[A-Za-z0-9_]|[A-Za-z0-9_](?:[A-Za-z0-9_+\-]|\.[A-Za-z0-9_+\-])*[A-Za-z0-9_])$`:
either a single word character, or a word character followed by
`userNameTail`. -/
def userNameRegexMatches : Str → Bool
  | [] => false
  | [c] => isWordChar c
  | c :: rest => isWordChar c && userNameTail rest

/-- `domain/value_obj/user_name.rs`: the validated user-name value object
(wrapping the normalized string). -/
structure UserName where
  name : Str
deriving DecidableEq, Repr

/-- `UserName::as_str`. -/
def UserName.as_str (u : UserName) : Str := u.name

/-- Message of the pattern rejection in `UserName::new`. -/
def UserName.regexErrMsg : String :=
  "ユーザー名(user_name)は以下のルールに従う必要があります。\n・使用可能文字：英数字，アンダースコア，ドット，ハイフン，プラス\n・先頭末尾は，英数字，アンダーバーのみ。\n・ドットは連続できない。"

/-- `UserName::new`: normalize with bounds [3,64], return absent for an
empty optional input, then require the regex to match. -/
def UserName.new (input : Str) (required : Bool) :
    Except AppError (Option UserName) :=
  match NormalizedString.new input required "ユーザー名(user_name)"
      (some 3) (some 64) with
  | .error e => .error e
  | .ok none => .ok none
  | .ok (some n) =>
    if userNameRegexMatches n then .ok (some ⟨n⟩)
    else .error (.unprocessableContent (some UserName.regexErrMsg))

/-- A word character is not whitespace. -/
theorem isWordChar_not_ws {c : Char} (h : isWordChar c = true) :
    isRustWhitespace c = false := by
  simp only [isWordChar, isRustWhitespace, decide_eq_true_eq,
    decide_eq_false_iff_not] at h ⊢
  omega

/-- `dropWhile` is the identity when the head does not satisfy the
predicate. -/
theorem dropWhile_eq_self_of_head {p : Char → Bool} {l : Str}
    (h : ∀ c, l.head? = some c → p c = false) : l.dropWhile p = l := by
  cases l with
  | nil => rfl
  | cons a t => simp [List.dropWhile, h a rfl]

/-- `rustTrim` is the identity on strings whose first and last characters
are not whitespace. -/
theorem rustTrim_eq_self {s : Str}
    (hd : ∀ c, s.head? = some c → isRustWhitespace c = false)
    (lt : ∀ c, s.getLast? = some c → isRustWhitespace c = false) :
    rustTrim s = s := by
  unfold rustTrim
  rw [dropWhile_eq_self_of_head hd, dropWhile_eq_self_of_head,
    List.reverse_reverse]
  intro c hc
  rw [List.head?_reverse] at hc
  exact lt c hc

/-- The final character accepted by `userNameTail` is a word character. -/
theorem userNameTail_getLast : ∀ s : Str, userNameTail s = true →
    ∀ c, s.getLast? = some c → isWordChar c = true
  | [], h => by simp [userNameTail] at h
  | [c], h => by
    intro x hx
    simp only [List.getLast?_singleton, Option.some.injEq] at hx
    subst hx
    simpa [userNameTail] using h
  | a :: d :: rest, h => by
    intro x hx
    simp only [userNameTail] at h
    split_ifs at h with ha
    · subst ha
      simp only [Bool.and_eq_true] at h
      cases rest with
      | nil => simp [userNameTail] at h
      | cons e t =>
        rw [List.getLast?_cons_cons, List.getLast?_cons_cons] at hx
        exact userNameTail_getLast (e :: t) h.2 x hx
    · simp only [Bool.and_eq_true] at h
      rw [List.getLast?_cons_cons] at hx
      exact userNameTail_getLast (d :: rest) h.2 x hx

/-- The first and last characters of a string matching `USER_NAME_REGEX`
are word characters (hence the string is trim-invariant). -/
theorem userNameRegexMatches_ends : ∀ s : Str, userNameRegexMatches s = true →
    (∀ c, s.head? = some c → isWordChar c = true)
    ∧ (∀ c, s.getLast? = some c → isWordChar c = true)
  | [], h => by simp [userNameRegexMatches] at h
  | [c], h => by
    simp only [userNameRegexMatches] at h
    constructor
    · intro x hx
      simp only [List.head?_cons, Option.some.injEq] at hx
      subst hx; exact h
    · intro x hx
      simp only [List.getLast?_singleton, Option.some.injEq] at hx
      subst hx; exact h
  | a :: d :: rest, h => by
    simp only [userNameRegexMatches, Bool.and_eq_true] at h
    constructor
    · intro x hx
      simp only [List.head?_cons, Option.some.injEq] at hx
      subst hx; exact h.1
    · intro x hx
      rw [List.getLast?_cons_cons] at hx
      exact userNameTail_getLast (d :: rest) h.2 x hx

/-- C8.  Every handle matching `USER_NAME_REGEX` whose trimmed length lies
in [3,64] is accepted by `UserName::new`, and the constructed value's
string is the input string itself (round-trip). -/
theorem c8_valid_handle_round_trips (input : Str) (required : Bool)
    (hpat : userNameRegexMatches input = true)
    (hmin : 3 ≤ (rustTrim input).length)
    (hmax : (rustTrim input).length ≤ 64) :
    ∃ u, UserName.new input required = .ok (some u)
      ∧ UserName.as_str u = input := by
  obtain ⟨hhead, hlast⟩ := userNameRegexMatches_ends input hpat
  have htrim : rustTrim input = input :=
    rustTrim_eq_self (fun c hc => isWordChar_not_ws (hhead c hc))
      (fun c hc => isWordChar_not_ws (hlast c hc))
  have hne : input ≠ [] := by
    intro hnil
    rw [hnil] at hpat
    simp [userNameRegexMatches] at hpat
  refine ⟨⟨input⟩, ?_, rfl⟩
  rw [htrim] at hmin hmax
  have h1 : input.isEmpty = false := by
    cases input with
    | nil => exact absurd rfl hne
    | cons a t => rfl
  have h2 : ¬ input.length < 3 := by omega
  have h3 : ¬ 64 < input.length := by omega
  unfold UserName.new NormalizedString.new
  rw [htrim]
  simp [h1, h2, h3, hpat]

/-- C8 witness: the concrete handle "alice_01" is accepted and round-trips. -/
theorem c8_valid_handle_round_trips_witness :
    ∃ u, UserName.new "alice_01".data true = .ok (some u)
      ∧ UserName.as_str u = "alice_01".data :=
  c8_valid_handle_round_trips "alice_01".data true (by decide) (by decide)
    (by decide)

/-! ## Randomart (`utils/randomart.rs`) -/

def gridRows : Nat := 9
def gridCols : Nat := 23

/-- State of the drunken-bishop walk: the visit-count grid (u8 counters)
and the current position (i32 in the source). -/
structure BishopState where
  grid : List (List Nat)
  row : Int
  col : Int
deriving Repr

/-- `u8::saturating_add(1)`: the counter saturates at the u8 maximum. -/
def satInc (n : Nat) : Nat := min (n + 1) 255

/-- `grid[r][c]`. -/
def cell (g : List (List Nat)) (r c : Nat) : Nat := (g.getD r []).getD c 0

/-- `grid[r][c] = grid[r][c].saturating_add(1)`. -/
def incrAt (g : List (List Nat)) (r c : Nat) : List (List Nat) :=
  g.set r ((g.getD r []).set c (satInc ((g.getD r []).getD c 0)))

/-- Rust `i32::clamp(lo, hi)`. -/
def clampInt (x lo hi : Int) : Int := max lo (min x hi)

/-- One 2-bit step of the walk's inner loop: bit 0 (`b & 0x01`, here
`b % 2`) selects the horizontal direction, bit 1 (`b & 0x02`, here
`b / 2 % 2`) the vertical; the new position is clamped to the grid bounds
and its counter incremented. -/
def bishopStep (st : BishopState) (b : Nat) : BishopState :=
  let dx : Int := if b % 2 = 1 then 1 else -1
  let dy : Int := if b / 2 % 2 = 1 then 1 else -1
  let row := clampInt (st.row + dy) 0 (gridRows - 1)
  let col := clampInt (st.col + dx) 0 (gridCols - 1)
  { grid := incrAt st.grid row.toNat col.toNat, row := row, col := col }

/-- The four successive values of `b` in the inner loop (`b >>= 2` twice a
time: shifting is division by 4). -/
def byteSteps (b : Nat) : List Nat := [b, b / 4, b / 16, b / 64]

/-- `_generate_drunken_bishop_grid`: 9 × 23 zero grid, start at
(rows/2, cols/2), walk all bytes, return (grid, start, end). -/
def _generate_drunken_bishop_grid (data : List Nat) :
    List (List Nat) × (Nat × Nat) × (Nat × Nat) :=
  let init : BishopState :=
    { grid := List.replicate gridRows (List.replicate gridCols 0)
      row := (gridRows : Int) / 2
      col := (gridCols : Int) / 2 }
  let start_position := (init.row.toNat, init.col.toNat)
  let final := data.foldl (fun st byte => (byteSteps byte).foldl bishopStep st) init
  (final.grid, start_position, (final.row.toNat, final.col.toNat))

/-- The count-to-symbol ramp of `_render_drunken_bishop_art`. -/
def symbols : List Char :=
  [' ', '.', 'o', '+', '=', '*', 'B', 'O', 'X', '@', '%', '&', '#', '/', '^']

/-- `make_border_with_msg`: a `+...+` line of inner width `cols` with the
message centred (extra dash on the right when the padding is odd); if the
message does not fit it is emitted between the two `+` unpadded. -/
def make_border_with_msg (cols : Nat) (msg : Str) : Str :=
  if cols ≤ utf8Len msg then '+' :: (msg ++ ['+'])
  else
    let padLeft := (cols - utf8Len msg) / 2
    let padRight := cols - utf8Len msg - padLeft
    '+' :: (List.replicate padLeft '-' ++ msg ++ List.replicate padRight '-' ++ ['+'])

/-- The body of the render loop for one cell: the start marker wins, then
the end marker, then the ramp clamped at its last index. -/
def renderCell (startp endp : Nat × Nat) (r c : Nat) (cnt : Nat) : Char :=
  if r = startp.1 ∧ c = startp.2 then 'S'
  else if r = endp.1 ∧ c = endp.2 then 'E'
  else symbols.getD (min cnt (symbols.length - 1)) ' '

/-- `_render_drunken_bishop_art`: top border, each grid row rendered cell
by cell between `|`s, bottom border, joined by newlines. -/
def _render_drunken_bishop_art (grid : List (List Nat))
    (startp endp : Nat × Nat) (topMsg bottomMsg : Str) : Str :=
  let cols := (grid.headD []).length
  let body := grid.enum.map fun rc =>
    '|' :: ((rc.2.enum.map fun cc => renderCell startp endp rc.1 cc.1 cc.2) ++ ['|'])
  List.intercalate ['\n']
    (make_border_with_msg cols topMsg :: body ++ [make_border_with_msg cols bottomMsg])

/-- `generate_randomart`: hash the public id (the SHA3-384 digest itself is
computed by the external `sha3` crate and is abstracted as the parameter
`sha3_384`, producing the 48 digest bytes), walk, and render with the fixed
captions. -/
def generate_randomart (sha3_384 : Str → List Nat) (public_id : Str) : Str :=
  let fingerprint := sha3_384 public_id
  match _generate_drunken_bishop_grid fingerprint with
  | (grid, startp, endp) =>
    _render_drunken_bishop_art grid startp endp "[your_id]".data "[SHA3-384]".data

/-! ### Reference definitions, written from the spec's description of the
drunken-bishop algorithm (positions as pairs of naturals, visit counts by
counting occurrences in the walk's position trace). -/

/-- Spec: each digest byte is consumed 2 bits at a time, low bits first,
giving 4 steps per byte. -/
def specSteps (data : List Nat) : List Nat :=
  data.flatMap fun b => [b % 4, b / 4 % 4, b / 16 % 4, b / 64 % 4]

/-- Spec: a step moves diagonally — bit 0 selects the horizontal direction,
bit 1 the vertical — and clamps to the 9 × 23 grid (natural-number
subtraction floors at 0, `min` caps at the far edges: no wraparound). -/
def specMove (p : Nat × Nat) (s : Nat) : Nat × Nat :=
  (if s / 2 % 2 = 1 then min (p.1 + 1) 8 else p.1 - 1,
   if s % 2 = 1 then min (p.2 + 1) 22 else p.2 - 1)

/-- Spec: the start is the geometric centre of the 9 × 23 grid. -/
def specStart : Nat × Nat := (4, 11)

/-- Spec: the positions visited by the walk (the start cell itself is not
a visit). -/
def specVisits (data : List Nat) : List (Nat × Nat) :=
  ((specSteps data).scanl specMove specStart).tail

/-- Spec: the per-cell visit count, saturating at the counter maximum. -/
def specCount (data : List Nat) (p : Nat × Nat) : Nat :=
  min ((specVisits data).count p) 255

/-- Spec: the end marker is the final position of the walk. -/
def specEnd (data : List Nat) : Nat × Nat :=
  (specSteps data).foldl specMove specStart

/-- Spec: one rendered grid cell — 'S' at the start, 'E' at the end, else
the ramp symbol of the (clamped) visit count. -/
def specCell (data : List Nat) (p : Nat × Nat) : Char :=
  if p = specStart then 'S'
  else if p = specEnd data then 'E'
  else symbols.getD (min (specCount data p) 14) ' '

/-- Spec: a caption centred in a border of width `gridCols + 2` (the two
corners are `+`). -/
def specBorder (msg : Str) : Str :=
  '+' :: (List.replicate ((23 - msg.length) / 2) '-' ++ msg
    ++ List.replicate (23 - msg.length - (23 - msg.length) / 2) '-' ++ ['+'])

/-- Spec: the full art — the `[your_id]` caption, the 9 body rows each
wrapped in `|`, the `[SHA3-384]` caption, joined by newlines. -/
def specArt (data : List Nat) : Str :=
  List.intercalate ['\n']
    (specBorder "[your_id]".data ::
      ((List.range 9).map fun r =>
        '|' :: (((List.range 23).map fun c => specCell data (r, c)) ++ ['|']))
      ++ [specBorder "[SHA3-384]".data])

/-- Spec: the full fingerprint of an identifier. -/
def spec_generate_randomart (sha3_384 : Str → List Nat) (public_id : Str) : Str :=
  specArt (sha3_384 public_id)

/-! ### Bridging the source walk to the spec walk -/

/-- Folding over a `flatMap` is the source's nested byte loop. -/
theorem foldl_flatMap {α β γ : Type} (f : γ → List β) (g : α → β → α) :
    ∀ (l : List γ) (init : α),
      (l.flatMap f).foldl g init = l.foldl (fun st x => (f x).foldl g st) init
  | [], _ => rfl
  | x :: t, init => by
    rw [List.flatMap_cons, List.foldl_append, List.foldl_cons]
    exact foldl_flatMap f g t _

/-- A walk step only looks at the low two bits of its step value. -/
theorem bishopStep_mod (st : BishopState) (b : Nat) :
    bishopStep st b = bishopStep st (b % 4) := by
  unfold bishopStep
  have h1 : b % 4 % 2 = b % 2 := by omega
  have h2 : b % 4 / 2 % 2 = b / 2 % 2 := by omega
  rw [h1, h2]

/-- A byte's four shifted values drive the walk exactly as the spec's four
2-bit step values. -/
theorem foldl_byteSteps_eq (st : BishopState) (b : Nat) :
    (byteSteps b).foldl bishopStep st
      = [b % 4, b / 4 % 4, b / 16 % 4, b / 64 % 4].foldl bishopStep st := by
  simp only [byteSteps, List.foldl_cons, List.foldl_nil]
  have e1 : ∀ s, bishopStep s b = bishopStep s (b % 4) := fun s => bishopStep_mod s b
  have e2 : ∀ s, bishopStep s (b / 4) = bishopStep s (b / 4 % 4) :=
    fun s => bishopStep_mod s (b / 4)
  have e3 : ∀ s, bishopStep s (b / 16) = bishopStep s (b / 16 % 4) :=
    fun s => bishopStep_mod s (b / 16)
  have e4 : ∀ s, bishopStep s (b / 64) = bishopStep s (b / 64 % 4) :=
    fun s => bishopStep_mod s (b / 64)
  rw [e1, e2, e3, e4]

/-- The source's byte loop equals the fold over the spec's step list. -/
theorem walk_eq_specSteps (data : List Nat) (init : BishopState) :
    data.foldl (fun st byte => (byteSteps byte).foldl bishopStep st) init
      = (specSteps data).foldl bishopStep init := by
  unfold specSteps
  rw [foldl_flatMap]
  induction data generalizing init with
  | nil => rfl
  | cons b t ih =>
    simp only [List.foldl_cons]
    rw [foldl_byteSteps_eq]
    exact ih _

/-- `getD` after `set` at the same (in-range) index. -/
theorem getD_set_self {α : Type} (l : List α) (i : Nat) (x d : α)
    (h : i < l.length) : (l.set i x).getD i d = x := by
  rw [List.getD_eq_getElem?_getD, List.getElem?_set_eq_of_lt x h]
  rfl

/-- `getD` after `set` at a different index. -/
theorem getD_set_ne {α : Type} (l : List α) (i j : Nat) (x d : α)
    (h : i ≠ j) : (l.set i x).getD j d = l.getD j d := by
  rw [List.getD_eq_getElem?_getD, List.getElem?_set_ne h,
    ← List.getD_eq_getElem?_getD]

/-- The dimension invariant of the walk's grid: 9 rows of 23 columns. -/
def GridDims (g : List (List Nat)) : Prop :=
  g.length = 9 ∧ ∀ row ∈ g, row.length = 23

/-- An in-range row of a well-dimensioned grid has 23 entries. -/
theorem getD_row_len {g : List (List Nat)} (h : GridDims g) {r : Nat}
    (hr : r < 9) : (g.getD r []).length = 23 := by
  have h' : r < g.length := by rw [h.1]; exact hr
  rw [List.getD_eq_getElem g [] h']
  exact h.2 _ (List.getElem_mem _)

theorem dims_incrAt {g : List (List Nat)} (h : GridDims g) {r : Nat}
    (hr : r < 9) (c : Nat) : GridDims (incrAt g r c) := by
  constructor
  · rw [incrAt, List.length_set]
    exact h.1
  · intro row hrow
    rcases List.mem_or_eq_of_mem_set hrow with hmem | heq
    · exact h.2 row hmem
    · subst heq
      rw [List.length_set]
      exact getD_row_len h hr

/-- Incrementing cell `q` saturates that counter and leaves others alone. -/
theorem cell_incrAt {g : List (List Nat)} (h : GridDims g) {q1 q2 : Nat}
    (hq1 : q1 < 9) (hq2 : q2 < 23) (r c : Nat) :
    cell (incrAt g q1 q2) r c
      = if r = q1 ∧ c = q2 then satInc (cell g q1 q2) else cell g r c := by
  have hglen : g.length = 9 := h.1
  have hrowlen : (g.getD q1 []).length = 23 := getD_row_len h hq1
  have hq1w : q1 < g.length := by omega
  have hq2w : q2 < (g.getD q1 []).length := by omega
  unfold cell incrAt
  by_cases hr : r = q1
  · subst hr
    rw [getD_set_self _ _ _ _ hq1w]
    by_cases hc : c = q2
    · subst hc
      rw [getD_set_self _ _ _ _ hq2w]
      simp
    · rw [getD_set_ne _ _ _ _ _ (fun he => hc he.symm)]
      simp [hc]
  · rw [getD_set_ne _ _ _ _ _ (fun he => hr he.symm)]
    simp [hr]

/-- One source step matches one spec move and preserves the bounds. -/
theorem bishopStep_pos (st : BishopState) (s : Nat)
    (hr : 0 ≤ st.row ∧ st.row ≤ 8) (hc : 0 ≤ st.col ∧ st.col ≤ 22) :
    ((bishopStep st s).row.toNat, (bishopStep st s).col.toNat)
        = specMove (st.row.toNat, st.col.toNat) s
      ∧ (0 ≤ (bishopStep st s).row ∧ (bishopStep st s).row ≤ 8)
      ∧ (0 ≤ (bishopStep st s).col ∧ (bishopStep st s).col ≤ 22) := by
  unfold bishopStep specMove clampInt gridRows gridCols
  simp only [Prod.mk.injEq]
  by_cases h1 : s / 2 % 2 = 1 <;> by_cases h2 : s % 2 = 1 <;>
    simp only [h1, h2, if_true, if_false] <;>
    refine ⟨⟨?_, ?_⟩, ⟨?_, ?_⟩, ?_, ?_⟩ <;> omega

/-- The grid of a stepped state is the incremented grid at the new
position. -/
theorem bishopStep_grid (st : BishopState) (s : Nat) :
    (bishopStep st s).grid
      = incrAt st.grid (bishopStep st s).row.toNat (bishopStep st s).col.toNat := rfl

/-- A scan is its head followed by its tail. -/
theorem scanl_head {α β : Type} (f : β → α → β) (b : β) (l : List α) :
    List.scanl f b l = b :: (List.scanl f b l).tail := by
  cases l <;> rfl

/-- The walk invariant: after folding any step list, the position equals
the spec fold, stays in bounds, the grid keeps its dimensions, and every
cell holds the saturated sum of its initial abstract count and its visits. -/
theorem walk_spec : ∀ (steps : List Nat) (st : BishopState)
    (f : Nat × Nat → Nat)
    (hr : 0 ≤ st.row ∧ st.row ≤ 8) (hc : 0 ≤ st.col ∧ st.col ≤ 22)
    (hdim : GridDims st.grid)
    (hcell : ∀ r c, r < 9 → c < 23 → cell st.grid r c = min (f (r, c)) 255),
    (0 ≤ (steps.foldl bishopStep st).row ∧ (steps.foldl bishopStep st).row ≤ 8)
    ∧ (0 ≤ (steps.foldl bishopStep st).col ∧ (steps.foldl bishopStep st).col ≤ 22)
    ∧ GridDims (steps.foldl bishopStep st).grid
    ∧ ((steps.foldl bishopStep st).row.toNat, (steps.foldl bishopStep st).col.toNat)
        = steps.foldl specMove (st.row.toNat, st.col.toNat)
    ∧ (∀ r c, r < 9 → c < 23 →
        cell (steps.foldl bishopStep st).grid r c
          = min (f (r, c)
              + (List.scanl specMove (st.row.toNat, st.col.toNat) steps).tail.count (r, c)) 255)
  | [], st, f, hr, hc, hdim, hcell => by
    refine ⟨hr, hc, hdim, rfl, ?_⟩
    intro r c hrb hcb
    simpa using hcell r c hrb hcb
  | s :: t, st, f, hr, hc, hdim, hcell => by
    obtain ⟨hpos, hr1, hc1⟩ := bishopStep_pos st s hr hc
    have hq1 : (bishopStep st s).row.toNat < 9 := by omega
    have hq2 : (bishopStep st s).col.toNat < 23 := by omega
    have hdim1 : GridDims (bishopStep st s).grid := by
      rw [bishopStep_grid]
      exact dims_incrAt hdim hq1 _
    have hcell1 : ∀ r c, r < 9 → c < 23 →
        cell (bishopStep st s).grid r c
          = min (f (r, c)
              + (if ((r, c) : Nat × Nat)
                  = ((bishopStep st s).row.toNat, (bishopStep st s).col.toNat)
                then 1 else 0)) 255 := by
      intro r c hrb hcb
      rw [bishopStep_grid, cell_incrAt hdim hq1 hq2 r c]
      by_cases he : r = (bishopStep st s).row.toNat
          ∧ c = (bishopStep st s).col.toNat
      · obtain ⟨he1, he2⟩ := he
        subst he1
        subst he2
        rw [if_pos ⟨rfl, rfl⟩, if_pos rfl, hcell _ _ (by omega) (by omega)]
        unfold satInc
        omega
      · rw [if_neg he, hcell _ _ hrb hcb,
          if_neg (by simp only [Prod.mk.injEq]; exact he)]
        simp
    obtain ⟨ar, ac, adim, apos, acell⟩ :=
      walk_spec t (bishopStep st s)
        (fun p => f p
          + if p = ((bishopStep st s).row.toNat, (bishopStep st s).col.toNat)
            then 1 else 0)
        hr1 hc1 hdim1 hcell1
    refine ⟨ar, ac, adim, ?_, ?_⟩
    · rw [List.foldl_cons, List.foldl_cons, apos, hpos]
    · intro r c hrb hcb
      rw [List.foldl_cons, acell r c hrb hcb]
      have hscan : (List.scanl specMove (st.row.toNat, st.col.toNat) (s :: t)).tail
          = specMove (st.row.toNat, st.col.toNat) s
              :: (List.scanl specMove (specMove (st.row.toNat, st.col.toNat) s) t).tail := by
        rw [List.scanl_cons]
        exact scanl_head _ _ _
      rw [hscan, hpos]
      simp only [List.count_cons, beq_iff_eq]
      by_cases he : ((r, c) : Nat × Nat) = specMove (st.row.toNat, st.col.toNat) s
      · rw [if_pos he, if_pos he.symm]
        omega
      · rw [if_neg he, if_neg (fun hx => he hx.symm)]
        omega

theorem getD_replicate {α : Type} (n : Nat) (a d : α) (i : Nat) :
    (List.replicate n a).getD i d = if i < n then a else d := by
  rcases Nat.lt_or_ge i n with h | h
  · rw [List.getD_eq_getElem _ _ (by simpa using h), List.getElem_replicate,
      if_pos h]
  · rw [if_neg (by omega), List.getD_eq_default _ _ (by simpa using h)]

theorem init_grid_dims :
    GridDims (List.replicate gridRows (List.replicate gridCols 0)) := by
  constructor
  · simp [gridRows]
  · intro row hrow
    rw [List.eq_of_mem_replicate hrow]
    simp [gridCols]

theorem init_grid_cell (r c : Nat) :
    cell (List.replicate gridRows (List.replicate gridCols 0)) r c = 0 := by
  unfold cell
  rw [getD_replicate]
  split_ifs with h
  · rw [getD_replicate]
    split_ifs with h2 <;> rfl
  · rfl

/-- The source grid generator, characterised through the spec's notions:
the start is the centre, the end is the spec walk's final position, the
grid is 9 × 23, and each cell holds the spec's saturated visit count. -/
theorem gen_grid_facts (data : List Nat) :
    (_generate_drunken_bishop_grid data).2.1 = specStart
    ∧ (_generate_drunken_bishop_grid data).2.2 = specEnd data
    ∧ GridDims (_generate_drunken_bishop_grid data).1
    ∧ (∀ r c, r < 9 → c < 23 →
        cell (_generate_drunken_bishop_grid data).1 r c = specCount data (r, c))
    ∧ (_generate_drunken_bishop_grid data).2.2.1 < 9
    ∧ (_generate_drunken_bishop_grid data).2.2.2 < 23 := by
  unfold _generate_drunken_bishop_grid
  simp only []
  rw [walk_eq_specSteps]
  obtain ⟨ar, ac, adim, apos, acell⟩ :=
    walk_spec (specSteps data)
      { grid := List.replicate gridRows (List.replicate gridCols 0)
        row := (gridRows : Int) / 2
        col := (gridCols : Int) / 2 }
      (fun _ => 0)
      (by constructor <;> decide) (by constructor <;> decide)
      init_grid_dims
      (fun r c _ _ => by rw [init_grid_cell]; rfl)
  refine ⟨rfl, ?_, adim, ?_, by omega, by omega⟩
  · rw [specEnd]
    rw [show ((((gridRows : Int) / 2).toNat, ((gridCols : Int) / 2).toNat) : Nat × Nat)
        = specStart from rfl] at apos
    exact apos
  · intro r c hr hc
    rw [acell r c hr hc]
    rw [show ((((gridRows : Int) / 2).toNat, ((gridCols : Int) / 2).toNat) : Nat × Nat)
        = specStart from rfl]
    rw [specCount, specVisits]
    simp

theorem enumFrom_map_getD {α β : Type} (g : Nat × α → β) (d : α) :
    ∀ (l : List α) (k : Nat),
      (l.enumFrom k).map g
        = (List.range l.length).map fun i => g (k + i, l.getD i d)
  | [], _ => rfl
  | a :: t, k => by
    rw [show (a :: t).enumFrom k = (k, a) :: t.enumFrom (k + 1) from rfl]
    rw [List.map_cons, enumFrom_map_getD g d t (k + 1)]
    rw [show (a :: t).length = t.length + 1 from rfl, List.range_succ_eq_map]
    rw [List.map_cons, List.map_map]
    congr 1
    apply List.map_congr_left
    intro i _
    show g (k + 1 + i, t.getD i d) = g (k + (i + 1), (a :: t).getD (i + 1) d)
    have hk : k + 1 + i = k + (i + 1) := by omega
    have hg : (a :: t).getD (i + 1) d = t.getD i d := by
      simp [List.getD]
    rw [hk, hg]

theorem enum_map_getD {α β : Type} (g : Nat × α → β) (d : α) (l : List α) :
    l.enum.map g = (List.range l.length).map fun i => g (i, l.getD i d) := by
  show (l.enumFrom 0).map g = _
  rw [enumFrom_map_getD g d l 0]
  apply List.map_congr_left
  intro i _
  show g (0 + i, l.getD i d) = g (i, l.getD i d)
  rw [Nat.zero_add]

/-- The rendered art of the source grid equals the spec's art. -/
theorem art_eq_specArt (data : List Nat) :
    _render_drunken_bishop_art (_generate_drunken_bishop_grid data).1
        (_generate_drunken_bishop_grid data).2.1
        (_generate_drunken_bishop_grid data).2.2
        "[your_id]".data "[SHA3-384]".data
      = specArt data := by
  obtain ⟨hstart, hend, hdim, hcell, he1, he2⟩ := gen_grid_facts data
  unfold _render_drunken_bishop_art specArt
  have hhead : ((_generate_drunken_bishop_grid data).1.headD []).length = 23 := by
    have hh : (_generate_drunken_bishop_grid data).1.headD []
        = (_generate_drunken_bishop_grid data).1.getD 0 [] := by
      cases (_generate_drunken_bishop_grid data).1 <;> rfl
    rw [hh]
    exact getD_row_len hdim (by omega)
  simp only [hhead]
  have hborders :
      make_border_with_msg 23 "[your_id]".data = specBorder "[your_id]".data
      ∧ make_border_with_msg 23 "[SHA3-384]".data
          = specBorder "[SHA3-384]".data := by decide
  rw [hborders.1, hborders.2]
  congr 2
  rw [enum_map_getD _ ([] : List Nat), hdim.1]
  congr 1
  apply List.map_congr_left
  intro r hrmem
  have hr : r < 9 := List.mem_range.mp hrmem
  show '|' :: ((((_generate_drunken_bishop_grid data).1.getD r []).enum.map
        fun cc => renderCell (_generate_drunken_bishop_grid data).2.1
          (_generate_drunken_bishop_grid data).2.2 r cc.1 cc.2) ++ ['|'])
      = '|' :: (((List.range 23).map fun c => specCell data (r, c)) ++ ['|'])
  congr 2
  rw [enum_map_getD _ 0, getD_row_len hdim hr]
  apply List.map_congr_left
  intro c hcmem
  have hc : c < 23 := List.mem_range.mp hcmem
  show renderCell (_generate_drunken_bishop_grid data).2.1
      (_generate_drunken_bishop_grid data).2.2 r c
      (cell (_generate_drunken_bishop_grid data).1 r c) = specCell data (r, c)
  rw [hcell r c hr hc, hstart, hend]
  unfold renderCell specCell
  by_cases h1 : r = specStart.1 ∧ c = specStart.2
  · rw [if_pos h1, if_pos (Prod.ext h1.1 h1.2)]
  · rw [if_neg h1,
      if_neg (fun hp => h1 ⟨congrArg Prod.fst hp, congrArg Prod.snd hp⟩)]
    by_cases h2 : r = (specEnd data).1 ∧ c = (specEnd data).2
    · rw [if_pos h2, if_pos (Prod.ext h2.1 h2.2)]
    · rw [if_neg h2,
        if_neg (fun hp => h2 ⟨congrArg Prod.fst hp, congrArg Prod.snd hp⟩)]
      rfl

/-- C7.  The fingerprint generator equals the reference drunken-bishop
definition built from the spec's words — SHA3-384 digest bytes consumed 2
bits at a time low-first on a 9 × 23 grid starting at the centre (4,11),
steps clamped to the bounds with saturating per-cell counters, counts
mapped to the fixed symbol ramp clamped at its last index with 'S'/'E'
markers, wrapped in `|` with the `[your_id]`/`[SHA3-384]` captions centred
in width-25 borders — and is therefore deterministic: equal identifiers
yield byte-identical art.  (The SHA3-384 digest itself is the external
`sha3` crate, abstracted as the quantified parameter.) -/
theorem c7_randomart_matches_reference :
    (∀ (sha3_384 : Str → List Nat) (public_id : Str),
        generate_randomart sha3_384 public_id
          = spec_generate_randomart sha3_384 public_id)
    ∧ (∀ (sha3_384 : Str → List Nat) (id1 id2 : Str), id1 = id2 →
        generate_randomart sha3_384 id1 = generate_randomart sha3_384 id2) := by
  constructor
  · intro f pid
    show _render_drunken_bishop_art (_generate_drunken_bishop_grid (f pid)).1
        (_generate_drunken_bishop_grid (f pid)).2.1
        (_generate_drunken_bishop_grid (f pid)).2.2
        "[your_id]".data "[SHA3-384]".data
      = specArt (f pid)
    exact art_eq_specArt (f pid)
  · intro f id1 id2 h
    rw [h]

/-- C7 witness: the refinement and determinism at a concrete digest
function and identifier. -/
theorem c7_randomart_matches_reference_witness :
    generate_randomart (fun _ => [0, 17, 255]) "x".data
      = spec_generate_randomart (fun _ => [0, 17, 255]) "x".data
    ∧ generate_randomart (fun _ => [0, 17, 255]) "x".data
      = generate_randomart (fun _ => [0, 17, 255]) "x".data :=
  ⟨c7_randomart_matches_reference.1 _ _,
    c7_randomart_matches_reference.2 _ "x".data "x".data rfl⟩

/-- The symbol ramp never produces a marker character. -/
theorem ramp_not_marker (cnt : Nat) :
    symbols.getD (min cnt (symbols.length - 1)) ' ' ≠ 'S'
    ∧ symbols.getD (min cnt (symbols.length - 1)) ' ' ≠ 'E' := by
  have hall : ∀ i : Fin 15,
      symbols.getD i.val ' ' ≠ 'S' ∧ symbols.getD i.val ' ' ≠ 'E' := by decide
  have hlen : symbols.length = 15 := rfl
  exact hall ⟨min cnt (symbols.length - 1), by omega⟩

/-- C10.  The start marker takes precedence over the end marker: if the
walk ends at the starting centre cell, that cell renders 'S' and no grid
cell renders 'E'; otherwise exactly the start cell renders 'S' and exactly
the end cell renders 'E'. -/
theorem c10_start_marker_precedence (data : List Nat) :
    ((_generate_drunken_bishop_grid data).2.2
        = (_generate_drunken_bishop_grid data).2.1 →
      renderCell (_generate_drunken_bishop_grid data).2.1
          (_generate_drunken_bishop_grid data).2.2 4 11
          (cell (_generate_drunken_bishop_grid data).1 4 11) = 'S'
      ∧ ∀ r c, r < 9 → c < 23 →
          renderCell (_generate_drunken_bishop_grid data).2.1
            (_generate_drunken_bishop_grid data).2.2 r c
            (cell (_generate_drunken_bishop_grid data).1 r c) ≠ 'E')
    ∧ ((_generate_drunken_bishop_grid data).2.2
        ≠ (_generate_drunken_bishop_grid data).2.1 →
      (∀ r c, r < 9 → c < 23 →
        (renderCell (_generate_drunken_bishop_grid data).2.1
            (_generate_drunken_bishop_grid data).2.2 r c
            (cell (_generate_drunken_bishop_grid data).1 r c) = 'S'
          ↔ (r, c) = (_generate_drunken_bishop_grid data).2.1))
      ∧ (∀ r c, r < 9 → c < 23 →
        (renderCell (_generate_drunken_bishop_grid data).2.1
            (_generate_drunken_bishop_grid data).2.2 r c
            (cell (_generate_drunken_bishop_grid data).1 r c) = 'E'
          ↔ (r, c) = (_generate_drunken_bishop_grid data).2.2))) := by
  obtain ⟨hstart, hend, hdim, hcell, he1, he2⟩ := gen_grid_facts data
  constructor
  · intro heq
    constructor
    · rw [hstart]
      unfold renderCell
      rw [if_pos ⟨rfl, rfl⟩]
    · intro r c hr hc hE
      unfold renderCell at hE
      split_ifs at hE with hS hEcond
      · exact absurd hE (by decide)
      · apply hS
        rw [heq] at hEcond
        exact hEcond
      · exact absurd hE (ramp_not_marker _).2
  · intro hne
    constructor
    · intro r c hr hc
      constructor
      · intro hS
        unfold renderCell at hS
        split_ifs at hS with h1 h2
        · exact Prod.ext h1.1 h1.2
        · exact absurd hS (by decide)
        · exact absurd hS (ramp_not_marker _).1
      · intro hp
        unfold renderCell
        rw [if_pos ⟨congrArg Prod.fst hp, congrArg Prod.snd hp⟩]
    · intro r c hr hc
      constructor
      · intro hE
        unfold renderCell at hE
        split_ifs at hE with h1 h2
        · exact absurd hE (by decide)
        · exact Prod.ext h2.1 h2.2
        · exact absurd hE (ramp_not_marker _).2
      · intro hp
        have hS : ¬(r = (_generate_drunken_bishop_grid data).2.1.1
            ∧ c = (_generate_drunken_bishop_grid data).2.1.2) := by
          intro hS
          exact hne (hp.symm.trans (Prod.ext hS.1 hS.2))
        unfold renderCell
        rw [if_neg hS, if_pos ⟨congrArg Prod.fst hp, congrArg Prod.snd hp⟩]

/-- C10 witness: on the empty digest the walk ends where it starts, the
centre renders 'S', and the corner cell does not render 'E'. -/
theorem c10_start_marker_precedence_witness :
    renderCell (_generate_drunken_bishop_grid []).2.1
        (_generate_drunken_bishop_grid []).2.2 4 11
        (cell (_generate_drunken_bishop_grid []).1 4 11) = 'S'
    ∧ renderCell (_generate_drunken_bishop_grid []).2.1
        (_generate_drunken_bishop_grid []).2.2 0 0
        (cell (_generate_drunken_bishop_grid []).1 0 0) ≠ 'E' :=
  have h := (c10_start_marker_precedence []).1 (by rfl)
  ⟨h.1, h.2 0 0 (by omega) (by omega)⟩

/-! ## Registration (`application/user/service.rs`,
`infra/pg/user_repo.rs`, `infra/pg/user_auth_repo.rs`, `utils/hashing.rs`) -/

/-- Modelled from the spec: `UserId` (`domain/value_obj/user_id.rs` is
absent from the source tree; only its callers are visible).  The internal
numeric key assigned by the store; 0 is the "unassigned" sentinel used
before insertion, so construction accepts any non-negative value and
rejects negatives. -/
structure UserId where
  id : Int
deriving DecidableEq, Repr

def UserId.new (v : Int) : Except AppError UserId :=
  if v < 0 then .error (.unprocessableContent (some "ユーザーID(user_id)が不正です。"))
  else .ok ⟨v⟩

/-- Modelled from the spec: `BirthDate`
(`domain/value_obj/birth_date.rs` is absent) — a calendar date with no
time component. -/
structure BirthDate where
  date : NaiveDate
deriving DecidableEq, Repr

def BirthDate.from_naive_date (d : NaiveDate) : BirthDate := ⟨d⟩

/-- `application/user/dto.rs::RegisterRequest`. -/
structure RegisterRequest where
  user_name : Str
  password : Str
  first_name : Option Str
  last_name : Option Str
  email : Option Str
  phone : Option Str
  birth_date : Option NaiveDate

/-- `application/user/dto.rs::RegisterResponse`. -/
structure RegisterResponse where
  public_id : Str
  randomart : Str
deriving DecidableEq, Repr

/-- `domain/entity/user.rs::User` (timestamps as abstract instants; the
optional full name is represented by its `first()`/`last()` accessor
values, since `UserFullName`'s constructor is an abstract collaborator
here). -/
structure User where
  user_id : UserId
  public_id : Str
  randomart : Str
  user_name : UserName
  full_name : Option (Str × Option Str)
  email : Option Str
  phone : Option Str
  birth_date : Option BirthDate
  status : UserStatus
  role : UserRole
  last_login_at : Option Int
  created_at : Int
  updated_at : Int

/-- `domain/entity/user_auth.rs::UserAuth`. -/
structure UserAuth where
  user_id : UserId
  current_hash : UserPassword
  prev_hash1 : Option UserPassword
  prev_hash2 : Option UserPassword
  login_fail_times : Nat
  created_at : Int
  updated_at : Int

/-- The PHC-format header produced by `utils/hashing.rs`: Argon2id,
version 19, m=19456, t=3, p=1 (the `Params::new(19456, 3, 1)` /
`Version::V0x13` configuration). -/
def phcHeader : Str := "$argon2id$v=19$m=19456,t=3,p=1$".data

/-- `utils/hashing.rs::hashing`, with the per-call random salt and the
external `argon2` digest function abstracted: the output is the
self-describing PHC string `header ++ salt ++ "$" ++ digest(plain, salt)`
encoding algorithm, cost parameters, salt and digest. -/
def hashing (argonDigest : Str → Str → Str) (salt : Str) (plain : Str) : Str :=
  phcHeader ++ salt ++ ['$'] ++ argonDigest plain salt

/-- Modelled from the spec: `UserPassword::as_hash` (called by
`infra/pg/user_auth_repo.rs` but absent from the source tree).  Per the
spec, the HashedSecret — the irreversible, self-describing hash string —
is the only persisted form of a password, so the value bound to the
password column is the Argon2 hash of the wrapped secret. -/
def UserPassword.as_hash (argonDigest : Str → Str → Str) (salt : Str)
    (pw : UserPassword) : Str :=
  hashing argonDigest salt pw.secret

/-- The values bound by the `INSERT INTO users` statement of
`infra/pg/user_repo.rs::insert_tx`, keyed by the store-generated id the
insert returns. -/
structure UserRow where
  user_id : Int
  public_id : Str
  randomart : Str
  user_name : Str
  first_name : Option Str
  last_name : Option Str
  email : Option Str
  phone : Option Str
  birth_date : Option NaiveDate
  status : Int
  role : Int
  last_login_at : Option Int
  created_at : Int
  updated_at : Int

/-- The values bound by the `INSERT INTO user_auths` statement of
`infra/pg/user_auth_repo.rs::insert_inner`. -/
structure AuthRow where
  user_id : Int
  current_hashed_password : Str
  prev_hashed_password_1 : Option Str
  prev_hashed_password_2 : Option Str
  login_fail_times : Nat
  created_at : Int
  updated_at : Int

/-- The visible store: the `users` and `user_auths` tables. -/
structure Db where
  users : List UserRow
  auths : List AuthRow

/-- The store's behaviour for one registration run: whether `begin`
succeeds, the result of the identity insert (the generated key on
success), and the results of the credential insert and the commit.
Modelled from the spec's repository contract (§6): inserts run against the
transaction handle, and a return before `commit` drops the handle and
rolls the transaction back. -/
structure TxOutcome where
  beginRes : Except AppError Unit
  insertUserRes : Except AppError Int
  insertAuthRes : Except AppError Unit
  commitRes : Except AppError Unit

/-- The row captured by the users insert for a user and a generated key. -/
def userRowOf (u : User) (key : Int) : UserRow :=
  { user_id := key
    public_id := u.public_id
    randomart := u.randomart
    user_name := u.user_name.as_str
    first_name := u.full_name.map (fun n => n.1)
    last_name := u.full_name.bind (fun n => n.2)
    email := u.email
    phone := u.phone
    birth_date := u.birth_date.map (fun b => b.date)
    status := UserStatus.toI16 u.status
    role := UserRole.toI16 u.role
    last_login_at := u.last_login_at
    created_at := u.created_at
    updated_at := u.updated_at }

/-- The row captured by the user_auths insert (`insert_inner` binds
`as_hash` of the current and historical secrets). -/
def authRowOf (argonDigest : Str → Str → Str) (salt : Str) (a : UserAuth) :
    AuthRow :=
  { user_id := a.user_id.id
    current_hashed_password := a.current_hash.as_hash argonDigest salt
    prev_hashed_password_1 := a.prev_hash1.map (fun h => h.as_hash argonDigest salt)
    prev_hashed_password_2 := a.prev_hash2.map (fun h => h.as_hash argonDigest salt)
    login_fail_times := a.login_fail_times
    created_at := a.created_at
    updated_at := a.updated_at }

/-- The source's optional-field pattern
`req.field.as_deref().map(|v| New::new(v, false)).transpose()?.flatten()`:
absent input stays absent, present input runs the constructor. -/
def optionalVO (new : Str → Bool → Except AppError (Option Str)) :
    Option Str → Except AppError (Option Str)
  | none => .ok none
  | some v => new v false

/-- `UserService::build_entities`, embedded from the source.  The value
constructors not under test — `UserFullName::new` (called with the
first/last names, its result represented by its accessor values),
`EmailAddress::new`, `PhoneNumber::new` — are abstract collaborator
parameters; `PublicId::new`'s random identifier and the `Utc::now()`
timestamp are inputs; the password pipeline and the fingerprint take their
library parameters as before.  The source's `.unwrap()` on the required
user-name and password constructions is represented by an internal-error
abort; with `required = true` those branches are unreachable. -/
def build_entities
    (gc : Char → GeneralCategory) (toLower : Str → Str)
    (zxcvbnScore : Str → List Str → Nat)
    (fullNameNew : Str → Str → Except AppError (Option (Str × Option Str)))
    (emailNew : Str → Bool → Except AppError (Option Str))
    (phoneNew : Str → Bool → Except AppError (Option Str))
    (sha3_384 : Str → List Nat)
    (publicId : Str) (now : Int)
    (req : RegisterRequest) : Except AppError (User × UserAuth) :=
  if (rustTrim req.user_name).isEmpty ∨ (rustTrim req.password).isEmpty then
    .error (.unprocessableContent (some
      "ユーザー名(user_name)及びパスワード(user_password)は必須です。"))
  else
    match UserName.new req.user_name true with
    | .error e => .error e
    | .ok none => .error (.internalServerError (some "unwrap on None"))
    | .ok (some user_name) =>
      match UserPassword.new gc toLower zxcvbnScore req.password true
          req.user_name req.birth_date with
      | .error e => .error e
      | .ok none => .error (.internalServerError (some "unwrap on None"))
      | .ok (some password) =>
        match fullNameNew (req.first_name.getD []) (req.last_name.getD []) with
        | .error e => .error e
        | .ok full_name =>
          match optionalVO emailNew req.email with
          | .error e => .error e
          | .ok email =>
            match optionalVO phoneNew req.phone with
            | .error e => .error e
            | .ok phone =>
              let birth_date := req.birth_date.map BirthDate.from_naive_date
              let randomart := generate_randomart sha3_384 publicId
              match UserId.new 0 with
              | .error e => .error e
              | .ok uid0 =>
                let user : User :=
                  { user_id := uid0
                    public_id := publicId
                    randomart := randomart
                    user_name := user_name
                    full_name := full_name
                    email := email
                    phone := phone
                    birth_date := birth_date
                    status := .pending
                    role := .user
                    last_login_at := none
                    created_at := now
                    updated_at := now }
                let auth : UserAuth :=
                  { user_id := user.user_id
                    current_hash := password
                    prev_hash1 := none
                    prev_hash2 := none
                    login_fail_times := 0
                    created_at := now
                    updated_at := now }
                .ok (user, auth)

/-- `UserService::register`, embedded from the source over the explicit
store state and a per-run store outcome: build the entities (any failure
aborts before persistence), begin, insert the user into the transaction's
view capturing the generated key, set it on both entities, insert the
auth record into the view, and commit — publishing the view; every earlier
return leaves the visible store unchanged (rollback on handle drop). -/
def register
    (gc : Char → GeneralCategory) (toLower : Str → Str)
    (zxcvbnScore : Str → List Str → Nat)
    (fullNameNew : Str → Str → Except AppError (Option (Str × Option Str)))
    (emailNew : Str → Bool → Except AppError (Option Str))
    (phoneNew : Str → Bool → Except AppError (Option Str))
    (sha3_384 : Str → List Nat)
    (argonDigest : Str → Str → Str) (salt : Str)
    (publicId : Str) (now : Int)
    (db : Db) (o : TxOutcome) (req : RegisterRequest) :
    Except AppError RegisterResponse × Db :=
  match build_entities gc toLower zxcvbnScore fullNameNew emailNew phoneNew
      sha3_384 publicId now req with
  | .error e => (.error e, db)
  | .ok (user, auth) =>
    match o.beginRes with
    | .error e => (.error e, db)
    | .ok _ =>
      match o.insertUserRes with
      | .error e => (.error e, db)
      | .ok new_id =>
        let tx1 : Db := { db with users := db.users ++ [userRowOf user new_id] }
        match UserId.new new_id with
        | .error e => (.error e, db)
        | .ok uid =>
          let user := { user with user_id := uid }
          let auth := { auth with user_id := user.user_id }
          match o.insertAuthRes with
          | .error e => (.error e, db)
          | .ok _ =>
            let tx2 : Db :=
              { tx1 with auths := tx1.auths ++ [authRowOf argonDigest salt auth] }
            match o.commitRes with
            | .error e => (.error e, db)
            | .ok _ =>
              (.ok { public_id := user.public_id, randomart := user.randomart },
                tx2)

/-- C3.  Registration is atomic: if the identity insert succeeded but the
credential insert or the commit fails, the visible store afterwards equals
the initial store (no identity row remains); more generally any failing run
leaves the store unchanged, and a successful run appends exactly one users
row and one user_auths row — either both records exist or neither does. -/
theorem c3_registration_atomic
    (gc : Char → GeneralCategory) (toLower : Str → Str)
    (zxcvbnScore : Str → List Str → Nat)
    (fullNameNew : Str → Str → Except AppError (Option (Str × Option Str)))
    (emailNew : Str → Bool → Except AppError (Option Str))
    (phoneNew : Str → Bool → Except AppError (Option Str))
    (sha3_384 : Str → List Nat)
    (argonDigest : Str → Str → Str) (salt : Str)
    (publicId : Str) (now : Int)
    (db : Db) (o : TxOutcome) (req : RegisterRequest) :
    (∀ k, o.insertUserRes = .ok k →
      ((∃ e, o.insertAuthRes = .error e) ∨ (∃ e, o.commitRes = .error e)) →
      (register gc toLower zxcvbnScore fullNameNew emailNew phoneNew sha3_384
        argonDigest salt publicId now db o req).2 = db)
    ∧ (∀ e, (register gc toLower zxcvbnScore fullNameNew emailNew phoneNew
        sha3_384 argonDigest salt publicId now db o req).1 = .error e →
      (register gc toLower zxcvbnScore fullNameNew emailNew phoneNew sha3_384
        argonDigest salt publicId now db o req).2 = db)
    ∧ (∀ resp, (register gc toLower zxcvbnScore fullNameNew emailNew phoneNew
        sha3_384 argonDigest salt publicId now db o req).1 = .ok resp →
      ∃ urow arow,
        (register gc toLower zxcvbnScore fullNameNew emailNew phoneNew sha3_384
          argonDigest salt publicId now db o req).2
          = { users := db.users ++ [urow], auths := db.auths ++ [arow] }) := by
  obtain ⟨obeg, okey, oauth, ocom⟩ := o
  cases hb : build_entities gc toLower zxcvbnScore fullNameNew emailNew
      phoneNew sha3_384 publicId now req with
  | error e0 =>
    refine ⟨?_, ?_, ?_⟩ <;> intros <;> simp_all [register]
  | ok ua =>
    obtain ⟨user, auth⟩ := ua
    cases obeg with
    | error e0 =>
      refine ⟨?_, ?_, ?_⟩ <;> intros <;> simp_all [register]
    | ok u0 =>
      cases okey with
      | error e0 =>
        refine ⟨?_, ?_, ?_⟩ <;> intros <;> simp_all [register]
      | ok k0 =>
        cases huid : UserId.new k0 with
        | error e0 =>
          refine ⟨?_, ?_, ?_⟩ <;> intros <;> simp_all [register]
        | ok uid =>
          cases oauth with
          | error e0 =>
            refine ⟨?_, ?_, ?_⟩ <;> intros <;> simp_all [register]
          | ok u1 =>
            cases ocom with
            | error e0 =>
              refine ⟨?_, ?_, ?_⟩ <;> intros <;> simp_all [register]
            | ok u2 =>
              refine ⟨?_, ?_, ?_⟩
              · intro k hk hfail
                rcases hfail with ⟨e, he⟩ | ⟨e, he⟩ <;> simp_all
              · intro e h
                simp_all [register]
              · intro resp h
                refine ⟨userRowOf user k0,
                  authRowOf argonDigest salt
                    { auth with
                        user_id := { user with user_id := uid }.user_id }, ?_⟩
                simp [register, hb, huid]

/-- C3 witness: a concrete run whose credential insert fails after the
identity insert succeeded leaves the (initially empty) store unchanged. -/
theorem c3_registration_atomic_witness :
    (register gcOther id score4 (fun _ _ => .ok none) (fun _ _ => .ok none)
      (fun _ _ => .ok none) (fun _ => []) (fun _ _ => "d".data) "s".data
      "p".data 0 ⟨[], []⟩
      { beginRes := .ok ()
        insertUserRes := .ok 1
        insertAuthRes := .error (.conflict none)
        commitRes := .ok () }
      { user_name := "alice_01".data
        password := "Tr0ub4dor&3xyz!".data
        first_name := none
        last_name := none
        email := none
        phone := none
        birth_date := none }).2 = ⟨[], []⟩ :=
  (c3_registration_atomic gcOther id score4 (fun _ _ => .ok none)
    (fun _ _ => .ok none) (fun _ _ => .ok none) (fun _ => [])
    (fun _ _ => "d".data) "s".data "p".data 0 ⟨[], []⟩
    { beginRes := .ok ()
      insertUserRes := .ok 1
      insertAuthRes := .error (.conflict none)
      commitRes := .ok () }
    { user_name := "alice_01".data
      password := "Tr0ub4dor&3xyz!".data
      first_name := none
      last_name := none
      email := none
      phone := none
      birth_date := none }).1 1 rfl (Or.inl ⟨.conflict none, rfl⟩)

/-- A string has at least as many bytes as characters. -/
theorem length_le_utf8Len (s : Str) : s.length ≤ utf8Len s := by
  induction s with
  | nil => simp [utf8Len]
  | cons a t ih =>
    have h1 : 1 ≤ utf8CharLen a := by
      unfold utf8CharLen
      split_ifs <;> omega
    have : utf8Len (a :: t) = utf8CharLen a + utf8Len t := by
      simp [utf8Len]
    rw [this]
    simp only [List.length_cons]
    omega

/-- Inverting a successful password construction: the wrapped secret is
the trimmed input, whose byte length is at most 64. -/
theorem userPassword_new_ok_some
    (gc : Char → GeneralCategory) (toLower : Str → Str)
    (score : Str → List Str → Nat)
    (input user_name : Str) (required : Bool) (bd : Option NaiveDate)
    (pw : UserPassword)
    (h : UserPassword.new gc toLower score input required user_name bd
      = .ok (some pw)) :
    pw.secret = rustTrim input ∧ utf8Len (rustTrim input) ≤ 64 := by
  cases bd with
  | none =>
    simp only [UserPassword.new, UserPassword.MIN_LEN, UserPassword.MAX_LEN] at h
    split_ifs at h <;>
      first
        | exact Except.noConfusion h
        | (injection h with h12
           exact Option.noConfusion h12)
        | (simp only [Except.ok.injEq, Option.some.injEq] at h
           subst h
           exact ⟨rfl, by omega⟩)
  | some d =>
    simp only [UserPassword.new, UserPassword.MIN_LEN, UserPassword.MAX_LEN] at h
    split_ifs at h <;>
      first
        | exact Except.noConfusion h
        | (injection h with h12
           exact Option.noConfusion h12)
        | (simp only [Except.ok.injEq, Option.some.injEq] at h
           subst h
           exact ⟨rfl, by omega⟩)

/-- Inverting a successful entity build: the assembled credential's
current secret is the validated password of the request's secret, with no
history and a zero failure counter. -/
theorem build_entities_ok
    (gc : Char → GeneralCategory) (toLower : Str → Str)
    (zxcvbnScore : Str → List Str → Nat)
    (fullNameNew : Str → Str → Except AppError (Option (Str × Option Str)))
    (emailNew : Str → Bool → Except AppError (Option Str))
    (phoneNew : Str → Bool → Except AppError (Option Str))
    (sha3_384 : Str → List Nat)
    (publicId : Str) (now : Int)
    (req : RegisterRequest) (user : User) (auth : UserAuth)
    (h : build_entities gc toLower zxcvbnScore fullNameNew emailNew phoneNew
        sha3_384 publicId now req = .ok (user, auth)) :
    (∃ pw, UserPassword.new gc toLower zxcvbnScore req.password true
        req.user_name req.birth_date = .ok (some pw)
      ∧ auth.current_hash = pw)
    ∧ auth.prev_hash1 = none ∧ auth.prev_hash2 = none
    ∧ auth.login_fail_times = 0 := by
  unfold build_entities at h
  split_ifs at h
  split at h
  · exact Except.noConfusion h
  · exact Except.noConfusion h
  · split at h
    · exact Except.noConfusion h
    · exact Except.noConfusion h
    · rename_i password hpw
      split at h
      · exact Except.noConfusion h
      · split at h
        · exact Except.noConfusion h
        · split at h
          · exact Except.noConfusion h
          · split at h
            · exact Except.noConfusion h
            · simp only [Except.ok.injEq, Prod.mk.injEq] at h
              obtain ⟨hu, ha⟩ := h
              refine ⟨⟨password, hpw, ?_⟩, ?_, ?_, ?_⟩ <;> rw [← ha]

/-- C1.  For every successful registration run, the persisted credential
row stores the password only as the self-describing Argon2 PHC hash string
(algorithm, cost parameters, salt, digest) computed from the validated
plaintext secret, with no history and a zero failure counter, and that
persisted string is never the plaintext secret.  The hypotheses record the
PHC component sizes (16-byte salt and 32-byte digest in base64: 22 and 43
characters). -/
theorem c1_credential_persisted_only_hash
    (gc : Char → GeneralCategory) (toLower : Str → Str)
    (zxcvbnScore : Str → List Str → Nat)
    (fullNameNew : Str → Str → Except AppError (Option (Str × Option Str)))
    (emailNew : Str → Bool → Except AppError (Option Str))
    (phoneNew : Str → Bool → Except AppError (Option Str))
    (sha3_384 : Str → List Nat)
    (argonDigest : Str → Str → Str) (salt : Str)
    (publicId : Str) (now : Int)
    (db : Db) (o : TxOutcome) (req : RegisterRequest)
    (hsalt : salt.length = 22)
    (hdig : ∀ p s, (argonDigest p s).length = 43)
    (resp : RegisterResponse)
    (hok : (register gc toLower zxcvbnScore fullNameNew emailNew phoneNew
        sha3_384 argonDigest salt publicId now db o req).1 = .ok resp) :
    ∃ arow : AuthRow,
      (register gc toLower zxcvbnScore fullNameNew emailNew phoneNew sha3_384
          argonDigest salt publicId now db o req).2.auths
        = db.auths ++ [arow]
      ∧ arow.current_hashed_password
          = hashing argonDigest salt (rustTrim req.password)
      ∧ arow.prev_hashed_password_1 = none
      ∧ arow.prev_hashed_password_2 = none
      ∧ arow.login_fail_times = 0
      ∧ arow.current_hashed_password ≠ rustTrim req.password := by
  obtain ⟨obeg, okey, oauth, ocom⟩ := o
  cases hb : build_entities gc toLower zxcvbnScore fullNameNew emailNew
      phoneNew sha3_384 publicId now req with
  | error e0 => simp [register, hb] at hok
  | ok ua =>
    obtain ⟨user, auth⟩ := ua
    obtain ⟨⟨pw, hpw, hcur⟩, hp1, hp2, hfl⟩ :=
      build_entities_ok gc toLower zxcvbnScore fullNameNew emailNew phoneNew
        sha3_384 publicId now req user auth hb
    obtain ⟨hsec, hlen⟩ :=
      userPassword_new_ok_some gc toLower zxcvbnScore req.password
        req.user_name true req.birth_date pw hpw
    cases obeg with
    | error e0 => simp [register, hb] at hok
    | ok u0 =>
      cases okey with
      | error e0 => simp [register, hb] at hok
      | ok k0 =>
        cases huid : UserId.new k0 with
        | error e0 => simp [register, hb, huid] at hok
        | ok uid =>
          cases oauth with
          | error e0 => simp [register, hb, huid] at hok
          | ok u1 =>
            cases ocom with
            | error e0 => simp [register, hb, huid] at hok
            | ok u2 =>
              have hhash :
                  (authRowOf argonDigest salt
                      { auth with
                          user_id :=
                            { user with user_id := uid }.user_id }).current_hashed_password
                    = hashing argonDigest salt (rustTrim req.password) := by
                show (UserPassword.as_hash argonDigest salt auth.current_hash)
                    = hashing argonDigest salt (rustTrim req.password)
                rw [hcur]
                unfold UserPassword.as_hash
                rw [hsec]
              refine ⟨authRowOf argonDigest salt
                  { auth with user_id := { user with user_id := uid }.user_id },
                ?_, hhash, hp1 ▸ rfl, hp2 ▸ rfl, hfl ▸ rfl, ?_⟩
              · simp [register, hb, huid]
              · rw [hhash]
                intro hEqStr
                have e1 : (hashing argonDigest salt (rustTrim req.password)).length
                    = 31 + 22 + 1 + 43 := by
                  simp [hashing, List.length_append, hsalt, hdig,
                    show phcHeader.length = 31 from rfl]
                have e2 := length_le_utf8Len (rustTrim req.password)
                have e3 := congrArg List.length hEqStr
                omega

/-- C1 witness: a concrete successful run persists the PHC hash string of
the secret — never the plaintext — with no history and a zero failure
counter. -/
theorem c1_credential_persisted_only_hash_witness :
    ∃ arow : AuthRow,
      (register gcOther id score4 (fun _ _ => .ok none) (fun _ _ => .ok none)
          (fun _ _ => .ok none) (fun _ => []) (fun _ _ => List.replicate 43 'd')
          "0123456789abcdefghijkl".data "p".data 0 ⟨[], []⟩
          { beginRes := .ok ()
            insertUserRes := .ok 1
            insertAuthRes := .ok ()
            commitRes := .ok () }
          { user_name := "alice_01".data
            password := "Tr0ub4dor&3xyz!".data
            first_name := none
            last_name := none
            email := none
            phone := none
            birth_date := none }).2.auths
        = ([] : List AuthRow) ++ [arow]
      ∧ arow.current_hashed_password
          = hashing (fun _ _ => List.replicate 43 'd')
              "0123456789abcdefghijkl".data
              (rustTrim "Tr0ub4dor&3xyz!".data)
      ∧ arow.prev_hashed_password_1 = none
      ∧ arow.prev_hashed_password_2 = none
      ∧ arow.login_fail_times = 0
      ∧ arow.current_hashed_password ≠ rustTrim "Tr0ub4dor&3xyz!".data :=
  c1_credential_persisted_only_hash gcOther id score4 (fun _ _ => .ok none)
    (fun _ _ => .ok none) (fun _ _ => .ok none) (fun _ => [])
    (fun _ _ => List.replicate 43 'd') "0123456789abcdefghijkl".data
    "p".data 0 ⟨[], []⟩
    { beginRes := .ok ()
      insertUserRes := .ok 1
      insertAuthRes := .ok ()
      commitRes := .ok () }
    { user_name := "alice_01".data
      password := "Tr0ub4dor&3xyz!".data
      first_name := none
      last_name := none
      email := none
      phone := none
      birth_date := none }
    (by decide) (fun p s => by simp) _ rfl

end Ngc
